import Mathlib

/-!
Verification of the cleaning-robot API (src/main.py).

The simulation engine `run_cleaning`, the session-logging endpoint
`clean_endpoint` and the CSV export `get_history` are embedded as
executable Lean functions, translated directly from the Python source:

* the process-wide map (`map_data`, `map_rows`, `map_cols`) becomes a
  `Grid` value; `Grid.data x y` plays the role of
  `map_data.get((x, y), False)` (absent keys read as `False`);
* Python's `set` of cleaned tiles becomes a `Finset (Int × Int)`;
* the early `return`s of `run_cleaning` become an `Except` short-circuit
  in the per-step loop `runSteps` and the per-action loop `runActions`;
* the global `cleaning_history` / `session_id` pair becomes a
  `ServerState` threaded through `clean_endpoint`;
* wall-clock values (`isoformat` timestamps, the float duration) are
  opaque strings supplied by the environment;
* `csv.writer` is modelled with its default `excel` dialect: minimal
  quoting and `\r\n` line terminator.
-/

namespace CleaningRobot

/-- The normalized walkability grid: `cols`/`rows` mirror the globals
`map_cols`/`map_rows`; `data x y` mirrors `map_data.get((x, y), False)`. -/
structure Grid where
  cols : Int
  rows : Int
  data : Int → Int → Bool

/-- One move command from the request body: `{"direction": ..., "steps": ...}`.
`steps` is an `Int` because Python accepts any integer; `range(steps)` on a
non-positive value runs zero iterations, matched by `Int.toNat` below. -/
structure Action where
  direction : String
  steps : Int

/-- `0 <= x < map_cols and 0 <= y < map_rows`, the bounds check of
`run_cleaning`. -/
abbrev inBounds (g : Grid) (x y : Int) : Prop :=
  0 ≤ x ∧ x < g.cols ∧ 0 ≤ y ∧ y < g.rows

/-- The `if direction == "north" ... elif ... else` chain of the inner loop:
`some` of the coordinate delta for a recognized direction, `none` otherwise. -/
def moveDelta (d : String) : Option (Int × Int) :=
  if d = "north" then some (0, -1)
  else if d = "south" then some (0, 1)
  else if d = "east" then some (1, 0)
  else if d = "west" then some (-1, 0)
  else none

/-- The inner `for _ in range(steps)` loop of `run_cleaning`: perform `n`
unit moves in direction `d` from `(x, y)` with cleaned-set `cleaned`.
`Except.error` carries the early `return list(cleaned_tiles), "error"`;
`Except.ok` carries the position and cleaned set after the loop. -/
def runSteps (g : Grid) (premium : Bool) (d : String) :
    Nat → Int → Int → Finset (Int × Int) →
      Except (Finset (Int × Int) × String) (Int × Int × Finset (Int × Int))
  | 0, x, y, cleaned => Except.ok (x, y, cleaned)
  | n + 1, x, y, cleaned =>
    match moveDelta d with
    | none => Except.error (cleaned, "error")
    | some (dx, dy) =>
      if ¬ inBounds g (x + dx) (y + dy) then
        Except.error (cleaned, "error")
      else if g.data (x + dx) (y + dy) = false then
        Except.error (cleaned, "error")
      else
        runSteps g premium d n (x + dx) (y + dy)
          (if premium = false ∨ (premium = true ∧ (x + dx, y + dy) ∉ cleaned) then
            insert (x + dx, y + dy) cleaned
          else cleaned)

/-- The outer `for action in actions` loop of `run_cleaning`. -/
def runActions (g : Grid) (premium : Bool) :
    List Action → Int → Int → Finset (Int × Int) → Finset (Int × Int) × String
  | [], _, _, cleaned => (cleaned, "completed")
  | a :: rest, x, y, cleaned =>
    match runSteps g premium a.direction a.steps.toNat x y cleaned with
    | Except.error r => r
    | Except.ok (x', y', cleaned') => runActions g premium rest x' y' cleaned'

/-- `run_cleaning(start_x, start_y, actions, premium)` from src/main.py,
with the process-wide map passed explicitly as `g`. -/
def run_cleaning (g : Grid) (start_x start_y : Int) (actions : List Action)
    (premium : Bool) : Finset (Int × Int) × String :=
  if ¬ inBounds g start_x start_y then ((∅ : Finset (Int × Int)), "error")
  else if g.data start_x start_y = false then ((∅ : Finset (Int × Int)), "error")
  else runActions g premium actions start_x start_y {(start_x, start_y)}

/-- One entry of `cleaning_history`: the `session_data` dict built by
`clean_endpoint`. Timestamps and the float duration are kept as the strings
the environment produced. -/
structure SessionData where
  id : Int
  start_time : String
  end_time : String
  final_state : String
  actions_count : Nat
  tiles_cleaned : Nat
  duration_seconds : String
deriving DecidableEq, Repr

/-- The process-wide mutable state: the `cleaning_history` list and the
`session_id` counter (seeded at 1). -/
structure ServerState where
  history : List SessionData
  sessionId : Int
deriving DecidableEq, Repr

/-- The state at process start: `cleaning_history = []`, `session_id = 1`. -/
def initState : ServerState := { history := [], sessionId := 1 }

/-- `clean_endpoint` from src/main.py: run the engine, append a session
record, bump the counter, and answer 400 on `"error"` / 200 otherwise.
`t1`, `t2`, `dur` stand for `start_time.isoformat()`, `end_time.isoformat()`
and `str`-rendered `duration_seconds`, which the environment supplies.
Returns the new state, the HTTP status and the response body. -/
def clean_endpoint (g : Grid) (st : ServerState) (start_x start_y : Int)
    (actions : List Action) (premium : Bool) (t1 t2 dur : String) :
    ServerState × Nat × Finset (Int × Int) × String :=
  let r := run_cleaning g start_x start_y actions premium
  let record : SessionData :=
    { id := st.sessionId
      start_time := t1
      end_time := t2
      final_state := r.2
      actions_count := actions.length
      tiles_cleaned := r.1.card
      duration_seconds := dur }
  let st' : ServerState :=
    { history := st.history ++ [record], sessionId := st.sessionId + 1 }
  (st', (if r.2 = "error" then 400 else 200), r.1, r.2)

/-- One HTTP request to `/clean`, including the grid in force at that time
and the wall-clock strings the environment produced for it. -/
structure Request where
  grid : Grid
  start_x : Int
  start_y : Int
  actions : List Action
  premium : Bool
  t1 : String
  t2 : String
  dur : String

/-- The state transition of one `/clean` call. -/
def execOne (st : ServerState) (r : Request) : ServerState :=
  (clean_endpoint r.grid st r.start_x r.start_y r.actions r.premium r.t1 r.t2 r.dur).1

/-- N sequential `/clean` calls, in order. -/
def execAll (reqs : List Request) (st : ServerState) : ServerState :=
  reqs.foldl execOne st

/-- A field must be quoted by `csv.writer` (excel dialect, QUOTE_MINIMAL)
iff it contains the delimiter, the quote char, or a CR/LF. -/
def needsQuoting (s : String) : Bool :=
  s.data.any (fun c => c = ',' || c = '"' || c = '\r' || c = '\n')

/-- A single CSV field as `csv.writer` renders it. -/
def csvField (s : String) : String :=
  if needsQuoting s then "\"" ++ s.replace "\"" "\"\"" ++ "\"" else s

/-- `writer.writerow(fields)`: comma-joined fields plus the excel dialect's
default `\r\n` line terminator. -/
def csvRow (fs : List String) : String :=
  String.intercalate "," (fs.map csvField) ++ "\r\n"

/-- The header row written by `get_history`. -/
def csvHeader : List String :=
  ["id", "start_time", "end_time", "final_state", "actions_count",
   "tiles_cleaned", "duration_seconds"]

/-- The seven cells written for one session, in the source's fixed order,
numbers rendered by `str`. -/
def sessionRow (s : SessionData) : List String :=
  [toString s.id, s.start_time, s.end_time, s.final_state,
   toString s.actions_count, toString s.tiles_cleaned, s.duration_seconds]

/-- The `for session in cleaning_history: writer.writerow(...)` loop:
the data rows appended to the in-memory buffer, in insertion order. -/
def csvLines : List SessionData → String
  | [] => ""
  | s :: rest => csvRow (sessionRow s) ++ csvLines rest

/-- `get_history` from src/main.py: the CSV text streamed back (header row
then one row per stored session), paired with the `media_type` of the
`StreamingResponse`. -/
def get_history (hist : List SessionData) : String × String :=
  (csvRow csvHeader ++ csvLines hist, "text/csv")

/-- A 3×1 all-walkable map, the `"ooo"` example of the spec. -/
def gridOoo : Grid :=
  { cols := 3, rows := 1, data := fun x y => decide (y = 0 ∧ 0 ≤ x ∧ x < 3) }

/-- A 3×1 map `"oxo"`: a blocked tile at `(1, 0)`. -/
def gridOxo : Grid :=
  { cols := 3, rows := 1, data := fun x y => decide (y = 0 ∧ (x = 0 ∨ x = 2)) }

/-- A 1×1 all-walkable map `"o"`. -/
def gridO1 : Grid :=
  { cols := 1, rows := 1, data := fun x y => decide (x = 0 ∧ y = 0) }

/-! ### C1: invalid start position -/

/-- C1: if the start position is out of bounds or the start tile is not
walkable, `run_cleaning` returns the empty cleaned set and `"error"`,
regardless of commands and of the premium flag. -/
theorem invalid_start_empty_error (g : Grid) (sx sy : Int) (acts : List Action)
    (premium : Bool) (h : ¬ inBounds g sx sy ∨ g.data sx sy = false) :
    run_cleaning g sx sy acts premium = ((∅ : Finset (Int × Int)), "error") := by
  unfold run_cleaning
  rcases h with h | h
  · rw [if_pos h]
  · by_cases hb : inBounds g sx sy
    · rw [if_neg (not_not_intro hb), if_pos h]
    · rw [if_pos hb]

/-- Witness for C1 at the spec's example: start `(5, 5)` on a small grid. -/
theorem invalid_start_empty_error_witness :
    (¬ inBounds gridOoo 5 5 ∨ gridOoo.data 5 5 = false) ∧
      run_cleaning gridOoo 5 5 [] false = ((∅ : Finset (Int × Int)), "error") :=
  ⟨Or.inl (by decide),
   invalid_start_empty_error gridOoo 5 5 [] false (Or.inl (by decide))⟩

/-! ### C5: empty command sequence -/

/-- C5: from any in-bounds, walkable start, a run with no commands cleans
exactly the start tile and completes. -/
theorem no_commands_cleans_start (g : Grid) (sx sy : Int) (premium : Bool)
    (h1 : inBounds g sx sy) (h2 : g.data sx sy = true) :
    run_cleaning g sx sy [] premium = ({(sx, sy)}, "completed") := by
  unfold run_cleaning
  rw [if_neg (not_not_intro h1), if_neg (by simp [h2])]
  rfl

/-- Witness for C5 on the 1×1 grid at its only tile. -/
theorem no_commands_cleans_start_witness :
    inBounds gridO1 0 0 ∧ gridO1.data 0 0 = true ∧
      run_cleaning gridO1 0 0 [] false = ({(0, 0)}, "completed") :=
  ⟨by decide, by decide,
   no_commands_cleans_start gridO1 0 0 false (by decide) (by decide)⟩

/-! ### C4: directional deltas and the `"ooo"` example -/

/-- C4: each unit move applies north `y-1`, south `y+1`, east `x+1`,
west `x-1` (the delta table `moveDelta`), and on the 3×1 grid `"ooo"` from
`(0,0)` the single command `{east, 2}` cleans `{(0,0),(1,0),(2,0)}` and
completes. -/
theorem deltas_and_ooo_example :
    moveDelta "north" = some (0, -1) ∧ moveDelta "south" = some (0, 1) ∧
    moveDelta "east" = some (1, 0) ∧ moveDelta "west" = some (-1, 0) ∧
    run_cleaning gridOoo 0 0 [{ direction := "east", steps := 2 }] false
      = ({(0, 0), (1, 0), (2, 0)}, "completed") := by
  refine ⟨by decide, by decide, by decide, by decide, by decide⟩

/-! ### C2: unrecognized direction -/

/-- Refutation of C2 as stated: with `steps = 0` an unrecognized direction
is a silent no-op — the inner per-step loop never runs, so the run reaches
the bogus command `{up, 0}`, skips it, and completes instead of erroring. -/
theorem unknown_direction_zero_steps_noop :
    run_cleaning gridO1 0 0 [{ direction := "up", steps := 0 }] false
        = ({(0, 0)}, "completed") ∧
      (run_cleaning gridO1 0 0 [{ direction := "up", steps := 0 }] false).2
        ≠ "error" := by
  refine ⟨by decide, by decide⟩

/-- C2 (amended): a command with an unrecognized direction and at least one
step ends the run at that command with status `"error"` and exactly the
tiles cleaned so far; with `steps ≤ 0` the command is silently skipped. -/
theorem unknown_direction_halts (g : Grid) (premium : Bool) (d : String)
    (s : Int) (rest : List Action) (x y : Int) (cleaned : Finset (Int × Int))
    (hd : moveDelta d = none) (hs : 1 ≤ s) :
    runActions g premium ({ direction := d, steps := s } :: rest) x y cleaned
      = (cleaned, "error") := by
  obtain ⟨k, hk⟩ : ∃ k, s.toNat = k + 1 := ⟨s.toNat - 1, by omega⟩
  simp only [runActions, hk, runSteps, hd]

/-- Witness for the amended C2: direction `"up"` with one step halts the
run with the tiles cleaned so far. -/
theorem unknown_direction_halts_witness :
    moveDelta "up" = none ∧ (1 : Int) ≤ 1 ∧
      runActions gridO1 false [{ direction := "up", steps := 1 }] 0 0
          {((0 : Int), (0 : Int))}
        = ({((0 : Int), (0 : Int))}, "error") :=
  ⟨by decide, by decide,
   unknown_direction_halts gridO1 false "up" 1 [] 0 0 {((0 : Int), (0 : Int))}
     (by decide) (by decide)⟩

/-! ### C6: any failing unit move halts with the partial result -/

/-- C6: when the next unit move fails — unrecognized direction, moved-to
position out of bounds, or moved-to position not walkable — the step loop
stops and yields exactly the tiles cleaned before the failing step with
status `"error"` (the failing tile is not added), and the action loop
returns that partial result as the run's result. -/
theorem unit_move_failure_halts (g : Grid) (premium : Bool) (d : String)
    (m : Nat) (x y : Int) (cleaned : Finset (Int × Int)) (rest : List Action)
    (s : Int) (hs : s.toNat = m + 1)
    (h : moveDelta d = none ∨ ∃ dx dy, moveDelta d = some (dx, dy) ∧
          (¬ inBounds g (x + dx) (y + dy) ∨ g.data (x + dx) (y + dy) = false)) :
    runSteps g premium d (m + 1) x y cleaned = Except.error (cleaned, "error") ∧
      runActions g premium ({ direction := d, steps := s } :: rest) x y cleaned
        = (cleaned, "error") := by
  have hstep : runSteps g premium d (m + 1) x y cleaned
      = Except.error (cleaned, "error") := by
    rcases h with hd | ⟨dx, dy, hd, hfail⟩
    · simp only [runSteps, hd]
    · rcases hfail with hb | hw
      · simp only [runSteps, hd, if_pos hb]
      · by_cases hb : inBounds g (x + dx) (y + dy)
        · simp only [runSteps, hd, if_neg (not_not_intro hb), if_pos hw]
        · simp only [runSteps, hd, if_pos hb]
  refine ⟨hstep, ?_⟩
  simp only [runActions, hs, hstep]

/-- Witness for C6 at the spec's `"oxo"` example: moving east from `(0,0)`
hits the blocked tile `(1,0)`; the run keeps `{(0,0)}` and errors. -/
theorem unit_move_failure_halts_witness :
    (1 : Int).toNat = 0 + 1 ∧
      runSteps gridOxo false "east" (0 + 1) 0 0 {((0 : Int), (0 : Int))}
        = Except.error ({((0 : Int), (0 : Int))}, "error") ∧
      runActions gridOxo false [{ direction := "east", steps := 1 }] 0 0
          {((0 : Int), (0 : Int))}
        = ({((0 : Int), (0 : Int))}, "error") :=
  ⟨by decide,
   unit_move_failure_halts gridOxo false "east" 0 0 0 {((0 : Int), (0 : Int))}
     [] 1 (by decide)
     (Or.inr ⟨1, 0, by decide, Or.inr (by decide)⟩)⟩

/-! ### C3: the premium flag is observationally irrelevant -/

/-- The step loop ignores the premium flag. -/
lemma runSteps_premium_irrelevant (g : Grid) (d : String) :
    ∀ (n : Nat) (x y : Int) (cleaned : Finset (Int × Int)),
      runSteps g true d n x y cleaned = runSteps g false d n x y cleaned := by
  intro n
  induction n with
  | zero => intro x y cleaned; rfl
  | succ m ih =>
    intro x y cleaned
    cases hd : moveDelta d with
    | none => simp only [runSteps, hd]
    | some dxy =>
      obtain ⟨dx, dy⟩ := dxy
      simp only [runSteps, hd]
      by_cases hb : inBounds g (x + dx) (y + dy)
      · by_cases hw : g.data (x + dx) (y + dy) = false
        · rw [if_neg (not_not_intro hb), if_pos hw,
            if_neg (not_not_intro hb), if_pos hw]
        · rw [if_neg (not_not_intro hb), if_neg hw,
            if_neg (not_not_intro hb), if_neg hw, ih]
          congr 1
          by_cases hq : (x + dx, y + dy) ∈ cleaned
          · simp [hq, Finset.insert_eq_self.mpr hq]
          · simp [hq]
      · rw [if_pos hb, if_pos hb]

/-- The action loop ignores the premium flag. -/
lemma runActions_premium_irrelevant (g : Grid) :
    ∀ (acts : List Action) (x y : Int) (cleaned : Finset (Int × Int)),
      runActions g true acts x y cleaned = runActions g false acts x y cleaned := by
  intro acts
  induction acts with
  | nil => intro x y cleaned; rfl
  | cons a rest ih =>
    intro x y cleaned
    simp only [runActions, runSteps_premium_irrelevant]
    cases runSteps g false a.direction a.steps.toNat x y cleaned with
    | error r => rfl
    | ok v => exact ih v.1 v.2.1 v.2.2

/-- C3: `run_cleaning` with `premium = true` returns exactly the same
cleaned-tile set and status as with `premium = false`, for every grid,
start and command list. -/
theorem premium_flag_no_effect (g : Grid) (sx sy : Int) (acts : List Action) :
    run_cleaning g sx sy acts true = run_cleaning g sx sy acts false := by
  unfold run_cleaning
  by_cases hb : inBounds g sx sy
  · by_cases hw : g.data sx sy = false
    · rw [if_neg (not_not_intro hb), if_pos hw,
        if_neg (not_not_intro hb), if_pos hw]
    · rw [if_neg (not_not_intro hb), if_neg hw,
        if_neg (not_not_intro hb), if_neg hw,
        runActions_premium_irrelevant]
  · rw [if_pos hb, if_pos hb]

/-! ### C10: every recorded tile is in bounds and walkable -/

/-- A tile the engine may legitimately record: in bounds and walkable. -/
def validTile (g : Grid) (p : Int × Int) : Prop :=
  inBounds g p.1 p.2 ∧ g.data p.1 p.2 = true

/-- The cleaned set carried by either outcome of the step loop. -/
def stepResultCleaned :
    Except (Finset (Int × Int) × String) (Int × Int × Finset (Int × Int)) →
      Finset (Int × Int)
  | Except.error (c, _) => c
  | Except.ok (_, _, c) => c

/-- The step loop only ever adds tiles that passed its bounds check and its
walkability check. -/
lemma runSteps_validTile (g : Grid) (premium : Bool) (d : String) :
    ∀ (n : Nat) (x y : Int) (cleaned : Finset (Int × Int)),
      (∀ p ∈ cleaned, validTile g p) →
      ∀ p ∈ stepResultCleaned (runSteps g premium d n x y cleaned),
        validTile g p := by
  intro n
  induction n with
  | zero => intro x y cleaned hc; exact hc
  | succ m ih =>
    intro x y cleaned hc
    cases hd : moveDelta d with
    | none =>
      simp only [runSteps, hd, stepResultCleaned]
      exact hc
    | some dxy =>
      obtain ⟨dx, dy⟩ := dxy
      simp only [runSteps, hd]
      by_cases hb : inBounds g (x + dx) (y + dy)
      · by_cases hw : g.data (x + dx) (y + dy) = false
        · rw [if_neg (not_not_intro hb), if_pos hw]
          simp only [stepResultCleaned]
          exact hc
        · rw [if_neg (not_not_intro hb), if_neg hw]
          apply ih
          intro p hp
          have hp' : p ∈ insert (x + dx, y + dy) cleaned := by
            by_cases hcond : premium = false ∨
                (premium = true ∧ (x + dx, y + dy) ∉ cleaned)
            · rw [if_pos hcond] at hp; exact hp
            · rw [if_neg hcond] at hp; exact Finset.mem_insert_of_mem hp
          rcases Finset.mem_insert.mp hp' with rfl | hmem
          · exact ⟨hb, by simpa using hw⟩
          · exact hc p hmem
      · rw [if_pos hb]
        simp only [stepResultCleaned]
        exact hc

/-- The action loop preserves validity of every recorded tile. -/
lemma runActions_validTile (g : Grid) (premium : Bool) :
    ∀ (acts : List Action) (x y : Int) (cleaned : Finset (Int × Int)),
      (∀ p ∈ cleaned, validTile g p) →
      ∀ p ∈ (runActions g premium acts x y cleaned).1, validTile g p := by
  intro acts
  induction acts with
  | nil => intro x y cleaned hc; exact hc
  | cons a rest ih =>
    intro x y cleaned hc
    have hstep := runSteps_validTile g premium a.direction a.steps.toNat
      x y cleaned hc
    cases hr : runSteps g premium a.direction a.steps.toNat x y cleaned with
    | error r =>
      obtain ⟨c, s⟩ := r
      rw [hr] at hstep
      simp only [runActions, hr]
      simpa [stepResultCleaned] using hstep
    | ok v =>
      obtain ⟨x', y', c'⟩ := v
      rw [hr] at hstep
      simp only [runActions, hr]
      exact ih x' y' c' (by simpa [stepResultCleaned] using hstep)

/-- C10: every coordinate pair in the cleaned set returned by
`run_cleaning` is in bounds and walkable; a blocked or out-of-range tile is
never recorded as cleaned. -/
theorem cleaned_tiles_valid (g : Grid) (sx sy : Int) (acts : List Action)
    (premium : Bool) (p : Int × Int)
    (hp : p ∈ (run_cleaning g sx sy acts premium).1) :
    inBounds g p.1 p.2 ∧ g.data p.1 p.2 = true := by
  unfold run_cleaning at hp
  by_cases hb : inBounds g sx sy
  · by_cases hw : g.data sx sy = false
    · rw [if_neg (not_not_intro hb), if_pos hw] at hp
      simp at hp
    · rw [if_neg (not_not_intro hb), if_neg hw] at hp
      have h0 : ∀ q ∈ ({(sx, sy)} : Finset (Int × Int)), validTile g q := by
        intro q hq
        rw [Finset.mem_singleton] at hq
        subst hq
        exact ⟨hb, by simpa using hw⟩
      exact runActions_validTile g premium acts sx sy {(sx, sy)} h0 p hp
  · rw [if_pos hb] at hp
    simp at hp

/-- Witness for C10: the start tile of a trivial run is in bounds and
walkable. -/
theorem cleaned_tiles_valid_witness :
    ((0 : Int), (0 : Int)) ∈ (run_cleaning gridO1 0 0 [] false).1 ∧
      (inBounds gridO1 0 0 ∧ gridO1.data 0 0 = true) :=
  ⟨by decide,
   cleaned_tiles_valid gridO1 0 0 [] false ((0 : Int), (0 : Int)) (by decide)⟩

/-! ### C7: session ids are 1, 2, ..., N -/

/-- The id sequence `k, k+1, ..., k+n-1`. -/
def idsFrom (k : Int) (n : Nat) : List Int :=
  (List.range n).map (fun (i : Nat) => k + (i : Int))

lemma idsFrom_succ (k : Int) (n : Nat) :
    idsFrom k (n + 1) = k :: idsFrom (k + 1) n := by
  unfold idsFrom
  rw [List.range_succ_eq_map, List.map_cons, List.map_map]
  refine congrArg₂ List.cons (by simp) ?_
  refine List.map_congr_left (fun i _ => ?_)
  show k + ((i + 1 : Nat) : Int) = k + 1 + i
  push_cast
  ring

/-- One `/clean` call appends a record carrying the current counter value
and bumps the counter by one. -/
lemma execOne_shape (st : ServerState) (r : Request) :
    (execOne st r).history.map (fun s => s.id)
        = st.history.map (fun s => s.id) ++ [st.sessionId] ∧
      (execOne st r).sessionId = st.sessionId + 1 := by
  constructor
  · have hh : (execOne st r).history = st.history ++
        [{ id := st.sessionId, start_time := r.t1, end_time := r.t2,
           final_state :=
             (run_cleaning r.grid r.start_x r.start_y r.actions r.premium).2,
           actions_count := r.actions.length,
           tiles_cleaned :=
             (run_cleaning r.grid r.start_x r.start_y r.actions r.premium).1.card,
           duration_seconds := r.dur }] := rfl
    rw [hh, List.map_append]
    rfl
  · rfl

/-- Running a batch of requests from any state extends the id column by the
consecutive counter values. -/
lemma execAll_ids (reqs : List Request) :
    ∀ st : ServerState,
      (execAll reqs st).history.map (fun s => s.id)
        = st.history.map (fun s => s.id) ++ idsFrom st.sessionId reqs.length := by
  induction reqs with
  | nil => intro st; simp [execAll, idsFrom]
  | cons r rest ih =>
    intro st
    have h1 : execAll (r :: rest) st = execAll rest (execOne st r) := rfl
    rw [h1, ih, (execOne_shape st r).1, (execOne_shape st r).2,
      List.length_cons, idsFrom_succ]
    simp

/-- C7: starting from the freshly seeded process state, N sequential runs
record session ids `1, 2, ..., N` — strictly increasing, no gaps, no
repeats. -/
theorem session_ids_sequential (reqs : List Request) :
    (execAll reqs initState).history.map (fun s => s.id)
      = idsFrom 1 reqs.length := by
  rw [execAll_ids reqs initState]
  rfl

/-! ### C8: every run is logged exactly once, errors included -/

/-- C8: each `/clean` call appends exactly one session record — the same
seven-field shape regardless of outcome, with `final_state` the engine
status, `actions_count` the number of submitted commands and
`tiles_cleaned` the cardinality of the (possibly partial) cleaned set —
and when the engine reports `"error"` the record is in the history even
though the caller gets a 400. -/
theorem every_run_logged (g : Grid) (st : ServerState) (sx sy : Int)
    (acts : List Action) (premium : Bool) (t1 t2 dur : String) :
    (clean_endpoint g st sx sy acts premium t1 t2 dur).1.history
        = st.history ++
          [{ id := st.sessionId, start_time := t1, end_time := t2,
             final_state := (run_cleaning g sx sy acts premium).2,
             actions_count := acts.length,
             tiles_cleaned := (run_cleaning g sx sy acts premium).1.card,
             duration_seconds := dur }] ∧
      ((run_cleaning g sx sy acts premium).2 = "error" →
        (clean_endpoint g st sx sy acts premium t1 t2 dur).2.1 = 400) := by
  refine ⟨rfl, fun h => ?_⟩
  simp only [clean_endpoint, h]
  rfl

/-- Witness for C8: an out-of-bounds run errors, yet lands in the history
as a full record with `final_state = "error"`, and only then is the 400
raised. -/
theorem every_run_logged_witness :
    (clean_endpoint gridOoo initState 5 5 [] false "t1" "t2" "0.0").1.history
        = [{ id := 1, start_time := "t1", end_time := "t2",
             final_state := "error", actions_count := 0, tiles_cleaned := 0,
             duration_seconds := "0.0" }] ∧
      (clean_endpoint gridOoo initState 5 5 [] false "t1" "t2" "0.0").2.1
        = 400 :=
  ⟨((every_run_logged gridOoo initState 5 5 [] false "t1" "t2" "0.0").1).trans
      (by decide),
   (every_run_logged gridOoo initState 5 5 [] false "t1" "t2" "0.0").2
      (by decide)⟩

/-! ### C9: CSV export format -/

/-- Unquoted fields pass through `csv.writer` verbatim. -/
lemma map_csvField_id : ∀ fs : List String,
    (∀ f ∈ fs, needsQuoting f = false) → fs.map csvField = fs := by
  intro fs
  induction fs with
  | nil => intro _; rfl
  | cons f rest ih =>
    intro h
    have hf : needsQuoting f = false := h f (List.mem_cons_self f rest)
    have hr := ih (fun g hg => h g (List.mem_cons_of_mem f hg))
    simp [csvField, hf, hr]

/-- A sample record for the counterexample. -/
def sampleRecord : SessionData :=
  { id := 1, start_time := "2026-01-01T00:00:00",
    end_time := "2026-01-01T00:00:01", final_state := "completed",
    actions_count := 1, tiles_cleaned := 3, duration_seconds := "0.01" }

/-- Refutation of C9 as stated: `csv.writer`'s default (excel) dialect
terminates every row with `"\r\n"`, so the exported text is not the
`"\n"`-terminated form the claim describes. -/
theorem export_lines_crlf_not_lf :
    (get_history [sampleRecord]).1
        = "id,start_time,end_time,final_state,actions_count,tiles_cleaned,duration_seconds\r\n"
          ++ "1,2026-01-01T00:00:00,2026-01-01T00:00:01,completed,1,3,0.01\r\n" ∧
      (get_history [sampleRecord]).1
        ≠ "id,start_time,end_time,final_state,actions_count,tiles_cleaned,duration_seconds\n"
          ++ "1,2026-01-01T00:00:00,2026-01-01T00:00:01,completed,1,3,0.01\n" := by
  refine ⟨by decide, by decide⟩

/-- C9 (amended): the export is the fixed header row followed by one data
row per record, in insertion order, each record's seven fields verbatim in
the fixed order (given that no field needs CSV quoting), every line
terminated by `"\r\n"`, delivered as `text/csv`. -/
theorem export_csv_format (hist : List SessionData)
    (h : ∀ s ∈ hist, ∀ f ∈ sessionRow s, needsQuoting f = false) :
    (get_history hist).1
        = "id,start_time,end_time,final_state,actions_count,tiles_cleaned,duration_seconds\r\n"
          ++ (hist.map (fun s => String.intercalate "," (sessionRow s) ++ "\r\n")).foldr
              (fun a b => a ++ b) "" ∧
      (get_history hist).2 = "text/csv" := by
  refine ⟨?_, rfl⟩
  show csvRow csvHeader ++ csvLines hist = _
  have hhead : csvRow csvHeader
      = "id,start_time,end_time,final_state,actions_count,tiles_cleaned,duration_seconds\r\n" := by
    decide
  rw [hhead]
  congr 1
  induction hist with
  | nil => rfl
  | cons s rest ih =>
    have hs : (sessionRow s).map csvField = sessionRow s :=
      map_csvField_id (sessionRow s) (h s (List.mem_cons_self s rest))
    have hr := ih (fun t ht => h t (List.mem_cons_of_mem s ht))
    simp only [csvLines, List.map_cons, List.foldr_cons, csvRow, hs, hr]

/-- Witness for the amended C9 on a one-record history. -/
theorem export_csv_format_witness :
    (∀ s ∈ [sampleRecord], ∀ f ∈ sessionRow s, needsQuoting f = false) ∧
      (get_history [sampleRecord]).1
          = "id,start_time,end_time,final_state,actions_count,tiles_cleaned,duration_seconds\r\n"
            ++ ([sampleRecord].map
                (fun s => String.intercalate "," (sessionRow s) ++ "\r\n")).foldr
                (fun a b => a ++ b) "" ∧
      (get_history [sampleRecord]).2 = "text/csv" :=
  ⟨by decide,
   (export_csv_format [sampleRecord] (by decide)).1,
   (export_csv_format [sampleRecord] (by decide)).2⟩

end CleaningRobot
